import Mathlib

/-!
Verification of the hypatia data-acquisition pipeline
(`scripts/download_dev_data.py`, `scripts/plot_hamburg_temp.py`).

The Python sources are shallowly embedded: pure helpers become Lean
functions on `ℚ`/`ℤ`/`String`; the filesystem is an explicit list of
`(parameter, file stem)` pairs; network effects are oracle functions
passed in as arguments; Python exceptions become `Except String`.
Half-precision floats are kept abstract: a grid element is reduced by an
arbitrary conversion into a 16-bit word (`Fin 65536`), which is exactly
the information the byte-level codec preserves.
-/

namespace Hypatia

/-! ### Python primitives

`pyInt?` models Python's `int(str)` on the strings this code base feeds
it (an optional sign followed by decimal digits; the `int()` extras such
as surrounding whitespace or digit-group underscores cannot occur here
because the inputs come from `str.split('_')` slices).  `none` models
the `ValueError` that `int()` raises otherwise. -/

def digitsVal? (cs : List Char) : Option ℕ :=
  if cs ≠ [] ∧ cs.all Char.isDigit then
    some (cs.foldl (fun a c => a * 10 + (c.toNat - 48)) 0)
  else none

def pyInt? (cs : List Char) : Option ℤ :=
  match cs with
  | '-' :: rest => (digitsVal? rest).map (fun n => -(n : ℤ))
  | '+' :: rest => (digitsVal? rest).map (fun n => (n : ℤ))
  | _ => (digitsVal? cs).map (fun n => (n : ℤ))

def pyIntE (cs : List Char) : Except String ℤ :=
  match pyInt? cs with
  | some v => Except.ok v
  | none => Except.error ("invalid literal for int: " ++ String.mk cs)

/-- Structural-recursion version of splitting a character list at every
occurrence of a separator, the semantics of Python's `str.split('_')`
(empty segments are kept, the empty string yields one empty
segment). -/
def splitOnChar (sep : Char) : List Char → List (List Char)
  | [] => [[]]
  | x :: rest =>
      match splitOnChar sep rest with
      | [] => if x = sep then [[], []] else [[x]]
      | g :: gs => if x = sep then [] :: g :: gs else (x :: g) :: gs

/-! ### Proleptic Gregorian calendar

Models Python's `datetime` arithmetic.  `daysFromCivil`/`civilFromDays`
are the standard civil-calendar conversions (days relative to
1970-01-01); a model instant is a number of hours since that epoch. -/

def isLeapYear (y : ℤ) : Bool :=
  y.emod 4 = 0 ∧ (y.emod 100 ≠ 0 ∨ y.emod 400 = 0)

def daysInMonth (y m : ℤ) : ℤ :=
  if m = 2 then (if isLeapYear y then 29 else 28)
  else if m = 4 ∨ m = 6 ∨ m = 9 ∨ m = 11 then 30
  else 31

/-- Validity domain of Python's `datetime(year, month, day, hour, 0, 0)`
constructor; outside it the constructor raises `ValueError`. -/
def validDatetime (y m d h : ℤ) : Bool :=
  1 ≤ y ∧ y ≤ 9999 ∧ 1 ≤ m ∧ m ≤ 12 ∧ 1 ≤ d ∧ d ≤ daysInMonth y m ∧
    0 ≤ h ∧ h ≤ 23

def checkDatetime (y m d h : ℤ) : Except String Unit :=
  if validDatetime y m d h then Except.ok () else Except.error "bad datetime"

def daysFromCivil (y m d : ℤ) : ℤ :=
  let y2 := y - (if m ≤ 2 then 1 else 0)
  let era := Int.fdiv y2 400
  let yoe := y2 - era * 400
  let doy := Int.fdiv (153 * (m + (if 2 < m then -3 else 9)) + 2) 5 + d - 1
  let doe := yoe * 365 + Int.fdiv yoe 4 - Int.fdiv yoe 100 + doy
  era * 146097 + doe - 719468

def civilFromDays (z0 : ℤ) : ℤ × ℤ × ℤ :=
  let z := z0 + 719468
  let era := Int.fdiv z 146097
  let doe := z - era * 146097
  let yoe :=
    Int.fdiv (doe - Int.fdiv doe 1460 + Int.fdiv doe 36524 - Int.fdiv doe 146096) 365
  let y := yoe + era * 400
  let doy := doe - (365 * yoe + Int.fdiv yoe 4 - Int.fdiv yoe 100)
  let mp := Int.fdiv (5 * doy + 2) 153
  let d := doy - Int.fdiv (153 * mp + 2) 5 + 1
  let m := mp + (if mp < 10 then 3 else -9)
  (y + (if m ≤ 2 then 1 else 0), m, d)

/-- Model instant (hours since the epoch) of a civil date and hour. -/
def instantOf (y m d h : ℤ) : ℤ :=
  daysFromCivil y m d * 24 + h

/-- Zero-padded decimal rendering, as used by `strftime` field formats
such as `%Y%m%d` and the f-string `{hour:02d}`. -/
def padNum (w : ℕ) (n : ℤ) : String :=
  let s := toString n
  if s.length < w then String.mk (List.replicate (w - s.length) (Char.ofNat 48)) ++ s
  else s

def fmtDate (t : ℤ) : String :=
  let c := civilFromDays (Int.fdiv t 24)
  padNum 4 c.1 ++ padNum 2 c.2.1 ++ padNum 2 c.2.2

def fmtCycle (t : ℤ) : String :=
  padNum 2 (Int.emod t 24) ++ "z"

/-- File stem `{date}_{cycle}` written for the timestep at instant `t`. -/
def fmtStem (t : ℤ) : String :=
  fmtDate t ++ "_" ++ fmtCycle t

/-! ### GridCodec

Embeds `latlon_to_grid_indices` and `load_fp16_data` from
`plot_hamburg_temp.py` and the wrap/encode steps of
`download_timestep` in `download_dev_data.py`.  Real-number arithmetic
is modelled exactly over `ℚ`; the float16 cast of a grid element is an
arbitrary 16-bit word conversion `toHalf`. -/

/-- Truncation toward zero, the semantics of Python's `int(float)`. -/
def ratTrunc (q : ℚ) : ℤ :=
  if 0 ≤ q then ⌊q⌋ else -⌊-q⌋

/-- Python's `%` on floats with a positive modulus: the result lies in
`[0, b)` (sign of the divisor). -/
def pyFMod (a b : ℚ) : ℚ :=
  a - b * ⌊a / b⌋

/-- Embedding of `latlon_to_grid_indices` (`plot_hamburg_temp.py`,
lines 26-47): truncating division by the 0.25-degree resolution, then
clamping into `[0, HEIGHT-1]` and `[0, WIDTH-1]`. -/
def latlonToGridIndices (lat lon : ℚ) : ℤ × ℤ :=
  let latIdx := ratTrunc ((90 - lat) / 0.25)
  let lonNormalized := pyFMod lon 360
  let lonIdx := ratTrunc (lonNormalized / 0.25)
  (max 0 (min (721 - 1) latIdx), max 0 (min (1441 - 1) lonIdx))

/-- Modelled from the spec: `latlonToIndex` as described in the design
document, with `round` (rounding to the nearest integer) in place of
the source's truncation.  Kept for comparison against
`latlonToGridIndices`. -/
def latlonToIndexSpec (lat lon : ℚ) : ℤ × ℤ :=
  let lonNorm := pyFMod lon 360
  (max 0 (min 720 (round ((90 - lat) / 0.25))),
   max 0 (min 1440 (round (lonNorm / 0.25))))

/-- Raw source field: the `(721, 1440)` array decoded from GRIB. -/
def RawGrid (α : Type) : Type :=
  Fin 721 → Fin 1440 → α

/-- Embedding of `np.hstack([values, values[:, 0:1]])`: append column 0
as column 1440, producing the canonical `(721, 1441)` grid. -/
def wrapGrid {α : Type} (x : RawGrid α) : Fin 721 → Fin 1441 → α :=
  fun i j => if h : j.val < 1440 then x i ⟨j.val, h⟩ else x i ⟨0, by norm_num⟩

/-- Wrapped grid after the `astype(np.float16)` precision reduction,
with the float16 cast abstracted as an arbitrary map `toHalf` into
16-bit words. -/
def fp16Grid {α : Type} (toHalf : α → Fin 65536) (x : RawGrid α) :
    Fin 721 → Fin 1441 → Fin 65536 :=
  fun i j => toHalf (wrapGrid x i j)

/-- Row-major lookup into a word grid by flat element index
(out-of-range indices, which never occur in the codec, read 0). -/
def gAt (g : Fin 721 → Fin 1441 → Fin 65536) (w : ℕ) : ℕ :=
  if h : w < 721 * 1441 then (g ⟨w / 1441, by omega⟩ ⟨w % 1441, by omega⟩).val
  else 0

/-- Embedding of `fp16_data.tofile`: row-major flatten of the
`(721, 1441)` word grid, each word serialized as two bytes
little-endian.  Byte `(i*1441 + j)*2` is the low byte of element
`(i, j)` and byte `(i*1441 + j)*2 + 1` its high byte. -/
def encodeGrid (g : Fin 721 → Fin 1441 → Fin 65536) : List (Fin 256) :=
  List.ofFn (n := 721 * 1441 * 2) fun k =>
    let v := gAt g (k.val / 2)
    if k.val % 2 = 0 then ⟨v % 256, by omega⟩
    else ⟨v / 256, by
      have hlt : gAt g (k.val / 2) < 65536 := by
        unfold gAt; split
        · exact (g _ _).isLt
        · norm_num
      omega⟩

/-- Embedding of `np.fromfile(..., dtype=np.float16)` followed by
`reshape(721, 1441)` (`load_fp16_data`): fails unless the byte count is
exactly `721*1441*2`, otherwise reassembles the little-endian words. -/
def decodeGrid (bs : List (Fin 256)) :
    Option (Fin 721 → Fin 1441 → Fin 65536) :=
  if h : bs.length = 721 * 1441 * 2 then
    some fun i j =>
      let lo := bs.get ⟨(i.val * 1441 + j.val) * 2, by
        have hi2 := i.isLt; have hj2 := j.isLt; omega⟩
      let hi := bs.get ⟨(i.val * 1441 + j.val) * 2 + 1, by
        have hi2 := i.isLt; have hj2 := j.isLt; omega⟩
      ⟨lo.val + 256 * hi.val, by have := lo.isLt; have := hi.isLt; omega⟩
  else none

/-! ### Acquisition pipeline (`download_dev_data.py`)

The filesystem under `public/data` is a list of
`(parameter name, file stem)` pairs; writing a file appends its pair.
Network interactions (ECMWF retrievals, the S3 listing, the forecast
probe) are oracle functions supplied through the `Env` structure, and
each remote fetch is classified by the outcome the per-parameter loop
body distinguishes. -/

/-- Parameter table `PARAMS` (keys, iteration order of the dict). -/
def PARAMS : List String :=
  ["temp2m", "wind10m_u", "wind10m_v", "pratesfc"]

/-- Outcome of one parameter fetch inside `download_timestep` /
`download_forecast_step`: any exception from retrieve/open, an empty
`data_vars` list, a grid of the wrong shape, or a good `(721, 1440)`
field. -/
inductive FetchOutcome : Type
  | exn : FetchOutcome
  | noDataVars : FetchOutcome
  | wrongShape : FetchOutcome
  | ok : FetchOutcome
deriving DecidableEq

/-- Oracles and ambient state for one orchestrator run. `dayStr k` is
`(today + k days).strftime('%Y%m%d')` — the calendar formatting of the
host clock, treated as an external collaborator.  `s3 date` models
`get_available_cycles`' S3 listing: `none` is a transport/parse
exception, `some ps` the raw `<Prefix>` strings.  `fc date cycle`
models `check_forecast_available` (already boolean: it catches its own
errors).  `fetchA date cycle param` and `fetchF lead param` classify
the analysis and forecast-step retrievals.  `store0` is the initial
disk contents. -/
structure Env : Type where
  dayStr : ℤ → String
  s3 : String → Option (List String)
  fc : String → String → Bool
  fetchA : String → String → String → FetchOutcome
  fetchF : ℕ → String → FetchOutcome
  store0 : List (String × String)

/-- Stable insertion of a string into a sorted list (ascending
lexicographic order, equal keys keep their original order). -/
def insertSortedStr (x : String) : List String → List String
  | [] => [x]
  | y :: ys => if decide (x ≤ y) then x :: y :: ys else y :: insertSortedStr x ys

/-- Stable ascending sort, the semantics of Python's `sorted` on
strings. -/
def sortStrings (l : List String) : List String :=
  l.foldr insertSortedStr []

/-- Embedding of `get_available_cycles` (lines 89-119): extract
`parts[1]` of every two-component prefix ending in `z`, then sort
lexicographically (Python `sorted`; chronological for cycle labels).
`none` propagates the raised exception. -/
def getAvailableCycles (e : Env) (dateStr : String) : Option (List String) :=
  (e.s3 dateStr).map fun prefixes =>
    let cycles := prefixes.filterMap fun p =>
      match (p.dropWhile (· = '/') |>.dropRightWhile (· = '/')).splitOn "/" with
      | [_, c] => if c.endsWith "z" then some c else none
      | _ => none
    sortStrings cycles

/-- Embedding of the per-date body of `discover_latest_ecmwf_run`:
walk the sorted cycles in reverse and return the first with forecast
data. -/
def probeDate (e : Env) (dateStr : String) : Option (String × String) :=
  match getAvailableCycles e dateStr with
  | none => none
  | some cycles =>
      (cycles.reverse.find? fun c => e.fc dateStr c).map fun c => (dateStr, c)

/-- Embedding of `discover_latest_ecmwf_run` (lines 43-69): probe today
then yesterday; a listing failure for a date is caught and skipped. -/
def discoverLatestRun (e : Env) : Option (String × String) :=
  (List.range 2).findSome? fun (daysBack : ℕ) => probeDate e (e.dayStr (-(daysBack : ℤ)))

/-- Embedding of `download_timestep` (lines 121-206): iterate the
parameters, writing a file only for a clean fetch, and return `True`
unconditionally (every per-parameter failure only skips that
parameter).  Result: (files written, return value). -/
def downloadTimestep (fetch : String → FetchOutcome) (date cycle : String) :
    List (String × String) × Bool :=
  let stem := date ++ "_" ++ cycle
  (PARAMS.foldl (fun acc p =>
      match fetch p with
      | .ok => acc ++ [(p, stem)]
      | _ => acc) [],
   true)

/-- Embedding of `download_forecast_step` (lines 303-364): an exception
for any parameter returns `False` immediately (earlier writes are
kept); an empty-variables or wrong-shape result skips just that
parameter; otherwise the parameter's file is written. -/
def downloadForecastStep (fetch : String → FetchOutcome) (stem : String) :
    List (String × String) → List String → List (String × String) × Bool
  | store, [] => (store, true)
  | store, p :: ps =>
      match fetch p with
      | .exn => (store, false)
      | .noDataVars => downloadForecastStep fetch stem store ps
      | .wrongShape => downloadForecastStep fetch stem store ps
      | .ok => downloadForecastStep fetch stem (store ++ [(p, stem)]) ps

/-- Embedding of the filename parse in the `existing_times` scan
(lines 240-250): a stem that does not split into exactly two parts is
skipped (`ok none`); otherwise the date/cycle fields are parsed with
`int()` and validated by the `datetime` constructor, either of which
raises. -/
def parseStem (stem : String) : Except String (Option ℤ) :=
  match splitOnChar '_' stem.data with
  | [fileDate, fileCycle] => do
      let y ← pyIntE (fileDate.take 4)
      let m ← pyIntE ((fileDate.drop 4).take 2)
      let d ← pyIntE ((fileDate.drop 6).take 2)
      let h ← pyIntE fileCycle.dropLast
      let _ ← checkDatetime y m d h
      pure (some (instantOf y m d h))
  | _ => pure none

/-- Step of the `existing_times` scan: parse one stem (propagating its
exception) and add the parsed instant, if any, to the set. -/
def scanStep (acc : Finset ℤ) (s : String) : Except String (Finset ℤ) := do
  match ← parseStem s with
  | some t => pure (insert t acc)
  | none => pure acc

/-- Embedding of the `existing_times` scan over the persisted stems of
one parameter directory. -/
def scanStems (stems : List String) : Except String (Finset ℤ) :=
  stems.foldlM scanStep ∅

/-- Stems persisted for one parameter (the `glob('*.bin')` of its
directory). -/
def stemsOf (store : List (String × String)) (param : String) : List String :=
  store.filterMap fun pr => if pr.1 = param then some pr.2 else none

/-- State threaded through the gap-fill loop of
`download_latest_forecasts`: the disk, the in-memory `existing_times`
set, the success counter `downloaded`, and the leads for which
`download_forecast_step` was actually invoked (the emitted plan). -/
structure LoopState : Type where
  store : List (String × String)
  existing : Finset ℤ
  downloaded : ℕ
  attempts : List ℕ
deriving DecidableEq

/-- Embedding of the `while downloaded < needed and forecast_hour <=
240` loop of `download_latest_forecasts` (lines 262-299).  Every
branch advances the lead by 6; a non-6-hour-aligned target is skipped;
a target all of whose parameter files exist and which is in
`existing_times` is skipped; otherwise `download_forecast_step` runs,
and on success the counter and the in-memory set are updated. -/
def forecastLoop (e : Env) (runInstant : ℤ) (needed : ℕ) (lead : ℕ)
    (st : LoopState) : LoopState :=
  if h : st.downloaded < needed ∧ lead ≤ 240 then
    let t := runInstant + lead
    if Int.emod (Int.emod t 24) 6 ≠ 0 then
      forecastLoop e runInstant needed (lead + 6) st
    else
      let stem := fmtStem t
      let skipDownload := PARAMS.all fun p => st.store.contains (p, stem)
      if skipDownload ∧ t ∈ st.existing then
        forecastLoop e runInstant needed (lead + 6) st
      else
        let r := downloadForecastStep (e.fetchF lead) stem st.store PARAMS
        let st2 :=
          if r.2 then
            { store := r.1, existing := insert t st.existing,
              downloaded := st.downloaded + 1, attempts := st.attempts ++ [lead] }
          else
            { st with store := r.1, attempts := st.attempts ++ [lead] }
        forecastLoop e runInstant needed (lead + 6) st2
  else st
termination_by 241 - lead

/-- Embedding of `download_latest_forecasts` (lines 220-301): parse the
run date and cycle, build `existing_times` from the `temp2m` stems,
and either return early (target already met) or run the gap-fill
loop. -/
def downloadLatestForecasts (e : Env) (runDate runCycle : String)
    (targetCount : ℕ) (store : List (String × String)) :
    Except String LoopState := do
  let y ← pyIntE (runDate.data.take 4)
  let m ← pyIntE ((runDate.data.drop 4).take 2)
  let d ← pyIntE ((runDate.data.drop 6).take 2)
  let h ← pyIntE runCycle.data.dropLast
  let _ ← checkDatetime y m d h
  let runInstant := instantOf y m d h
  let existing ← scanStems (stemsOf store "temp2m")
  if targetCount ≤ existing.card then
    pure ⟨store, existing, 0, []⟩
  else
    pure (forecastLoop e runInstant (targetCount - existing.card) 6
      ⟨store, existing, 0, []⟩)

/-- Inner body of the analysis sweep in `main` (lines 414-417): one
`download_timestep` call, appending its writes and counting `success`
when it returns `True`. -/
def cycleStep (e : Env) (date : String) (acc : List (String × String) × ℕ)
    (cycle : String) : List (String × String) × ℕ :=
  let r := downloadTimestep (e.fetchA date cycle) date cycle
  (acc.1 ++ r.1, if r.2 then acc.2 + 1 else acc.2)

/-- Body of the outer date loop of the analysis sweep. -/
def dateStep (e : Env) (cycles : List String)
    (acc : List (String × String) × ℕ) (date : String) :
    List (String × String) × ℕ :=
  cycles.foldl (cycleStep e date) acc

/-- Embedding of the analysis sweep in `main` (lines 412-418): for each
date and cycle call `download_timestep`, append its writes, and count
`success` when it returns `True`. -/
def analysisPhase (e : Env) (dates cycles : List String) :
    List (String × String) × ℕ :=
  dates.foldl (dateStep e cycles) (e.store0, 0)

/-- Embedding of `generate_date_list(days_before=delta, days_after=0)`:
the dates from `today - delta` through `today`, ascending. -/
def generateDateList (e : Env) (delta : ℕ) : List String :=
  (List.range (delta + 1)).map fun (i : ℕ) => e.dayStr ((i : ℤ) - (delta : ℤ))

/-- Embedding of `main` (lines 366-451): analysis sweep, run discovery,
and forecast extension.  The value is the process exit code; a
propagated model exception (`Except.error`) stands for the uncaught
Python exception that would abort the script. -/
def mainRun (e : Env) (delta : ℕ) : Except String ℕ :=
  let targetTimesteps := (delta * 2 + 1) * 4
  let dates := generateDateList e delta
  let cycles := ["00z", "06z", "12z", "18z"]
  let phase1 := analysisPhase e dates cycles
  match discoverLatestRun e with
  | none => Except.ok 1
  | some run => do
      let _ ← downloadLatestForecasts e run.1 run.2 targetTimesteps phase1.1
      Except.ok 0

/-- Modelled from the spec (section 4.3): the per-parameter existence
scan with unparsable names ignored rather than fatal. -/
def permissiveScan (store : List (String × String)) (param : String) : Finset ℤ :=
  (stemsOf store param).foldl (fun acc s =>
    match parseStem s with
    | .ok (some t) => insert t acc
    | _ => acc) ∅

/-- Modelled from the spec (section 4.5): the conservative existing set
for planning, the intersection of the per-parameter existence sets. -/
def specExistingSet (store : List (String × String)) : Finset ℤ :=
  match PARAMS with
  | [] => ∅
  | p :: ps => ps.foldl (fun acc q => acc ∩ permissiveScan store q)
      (permissiveScan store p)

/-- Modelled from the spec (section 4.2): the probe sequence of
`discoverLatestRun` — candidate dates from most recent backwards, and
within a date the sorted cycles from latest to earliest; a failed
listing contributes nothing. -/
def probeSeq (e : Env) : List (String × String) :=
  (List.range 2).flatMap fun (daysBack : ℕ) =>
    let ds := e.dayStr (-(daysBack : ℤ))
    match getAvailableCycles e ds with
    | none => []
    | some cycles => cycles.reverse.map fun c => (ds, c)

/-! ### Lemmas about the grid codec -/

lemma gAt_lt (g : Fin 721 → Fin 1441 → Fin 65536) (w : ℕ) :
    gAt g w < 65536 := by
  unfold gAt; split
  · exact (g _ _).isLt
  · norm_num

lemma gAt_apply (g : Fin 721 → Fin 1441 → Fin 65536) (i : Fin 721)
    (j : Fin 1441) : gAt g (i.val * 1441 + j.val) = (g i j).val := by
  have hi := i.isLt
  have hj := j.isLt
  have e1 : (i.val * 1441 + j.val) / 1441 = i.val := by omega
  have e2 : (i.val * 1441 + j.val) % 1441 = j.val := by omega
  unfold gAt
  rw [dif_pos (by omega)]
  simp only [e1, e2, Fin.eta]

lemma encodeGrid_get_val (g : Fin 721 → Fin 1441 → Fin 65536) (k : ℕ)
    (hk2 : k < (encodeGrid g).length) :
    ((encodeGrid g).get ⟨k, hk2⟩).val =
      if k % 2 = 0 then gAt g (k / 2) % 256 else gAt g (k / 2) / 256 := by
  rw [List.get_eq_getElem]
  simp only [encodeGrid, List.getElem_ofFn]
  split <;> rfl

lemma decode_eq (bs : List (Fin 256)) (g : Fin 721 → Fin 1441 → Fin 65536)
    (hlen : bs.length = 721 * 1441 * 2)
    (hbytes : ∀ (k : ℕ) (hk : k < bs.length),
      (bs.get ⟨k, hk⟩).val =
        if k % 2 = 0 then gAt g (k / 2) % 256 else gAt g (k / 2) / 256) :
    decodeGrid bs = some g := by
  rw [decodeGrid, dif_pos hlen]
  refine congrArg some (funext fun i => funext fun j => Fin.ext ?_)
  have hi := i.isLt
  have hj := j.isLt
  show (bs.get _).val + 256 * (bs.get _).val = _
  rw [hbytes, hbytes]
  rw [if_pos (by omega), if_neg (by omega)]
  rw [show (i.val * 1441 + j.val) * 2 / 2 = i.val * 1441 + j.val by omega,
    show ((i.val * 1441 + j.val) * 2 + 1) / 2 = i.val * 1441 + j.val by omega,
    gAt_apply]
  have := (g i j).isLt
  omega

lemma decode_encode (g : Fin 721 → Fin 1441 → Fin 65536) :
    decodeGrid (encodeGrid g) = some g := by
  have hlen : (encodeGrid g).length = 721 * 1441 * 2 := by
    rw [encodeGrid]; exact List.length_ofFn _
  exact decode_eq _ g hlen (fun k hk => encodeGrid_get_val g k hk)

/-! ### Claim C4 -/

/-- Claim C4 counterexample: at Cairo's coordinates the source truncates
`(90 - 30.0444) / 0.25 = 239.8224` to row 239 and
`31.2357 / 0.25 = 124.9428` to column 124, whereas the claimed
rounding formula gives `(240, 125)`. -/
theorem latlonToGridIndices_round_cex :
    latlonToGridIndices 30.0444 31.2357 = (239, 124) ∧
      latlonToIndexSpec 30.0444 31.2357 = (240, 125) ∧
      latlonToGridIndices 30.0444 31.2357 ≠
        latlonToIndexSpec 30.0444 31.2357 := by
  have h1 : latlonToGridIndices 30.0444 31.2357 = (239, 124) := by
    unfold latlonToGridIndices ratTrunc pyFMod
    norm_num
  have h2 : latlonToIndexSpec 30.0444 31.2357 = (240, 125) := by
    unfold latlonToIndexSpec pyFMod
    simp only [round_eq]
    norm_num
  refine ⟨h1, h2, by rw [h1, h2]; decide⟩

/-- Claim C4 (amended): `latlon_to_grid_indices` is a total pure function
returning `row = clamp(trunc((90 - lat) / 0.25), 0, 720)` and
`col = clamp(trunc((lon mod 360) / 0.25), 0, 1440)` with truncation
toward zero (Python `int()`), not rounding to nearest; out-of-range
inputs are clamped, never rejected, and the spec's three anchor
vectors hold. -/
theorem latlonToGridIndices_trunc (lat lon : ℚ) :
    latlonToGridIndices lat lon =
      (max 0 (min 720 (ratTrunc ((90 - lat) * 4))),
       max 0 (min 1440 (ratTrunc (pyFMod lon 360 * 4)))) ∧
    0 ≤ (latlonToGridIndices lat lon).1 ∧
    (latlonToGridIndices lat lon).1 ≤ 720 ∧
    0 ≤ (latlonToGridIndices lat lon).2 ∧
    (latlonToGridIndices lat lon).2 ≤ 1440 ∧
    latlonToGridIndices 90 0 = (0, 0) ∧
    latlonToGridIndices (-90) 0 = (720, 0) ∧
    latlonToGridIndices 0 360 = latlonToGridIndices 0 0 := by
  have hq : ∀ q : ℚ, q / 0.25 = q * 4 := fun q => by
    rw [show (0.25 : ℚ) = 4⁻¹ by norm_num, div_eq_mul_inv, inv_inv]
  have hv1 : latlonToGridIndices 90 0 = (0, 0) := by
    unfold latlonToGridIndices ratTrunc pyFMod
    norm_num
  have hv2 : latlonToGridIndices (-90) 0 = (720, 0) := by
    unfold latlonToGridIndices ratTrunc pyFMod
    norm_num
  have hv3 : latlonToGridIndices 0 360 = latlonToGridIndices 0 0 := by
    unfold latlonToGridIndices ratTrunc pyFMod
    norm_num
  refine ⟨?_, ?_, ?_, ?_, ?_, hv1, hv2, hv3⟩
  · simp only [latlonToGridIndices, hq]
    norm_num
  all_goals simp only [latlonToGridIndices]
  all_goals omega

/-! ### Claims C5 and C6 -/

/-- Claim C5: for every raw `(721, 1440)` field and every half-precision
conversion of its elements, decoding the encoded bytes of the wrapped
grid succeeds and reproduces exactly the element-wise half-precision
cast of the wrapped grid. -/
theorem decode_encode_wrap_roundtrip {α : Type} (toHalf : α → Fin 65536)
    (x : RawGrid α) :
    decodeGrid (encodeGrid (fp16Grid toHalf x)) = some (fp16Grid toHalf x) :=
  decode_encode (fp16Grid toHalf x)

/-- Claim C6: in every canonical grid produced by `wrap` followed by the
precision reduction, column 1440 equals column 0 exactly. -/
theorem wrap_last_column_eq_first {α : Type} (toHalf : α → Fin 65536)
    (x : RawGrid α) (i : Fin 721) :
    fp16Grid toHalf x i ⟨1440, by norm_num⟩ =
      fp16Grid toHalf x i ⟨0, by norm_num⟩ := by
  unfold fp16Grid wrapGrid
  norm_num

/-! ### Lemmas about the gap-fill loop -/

lemma contains_pair_iff {a : String × String} {l : List (String × String)} :
    l.contains a = true ↔ a ∈ l := by
  rw [List.contains_eq_any_beq]; simp

lemma forecastLoop_attempts_shape (e : Env) (ri : ℤ) (n : ℕ) :
    ∀ (lead : ℕ) (st : LoopState),
      ∃ new, (forecastLoop e ri n lead st).attempts = st.attempts ++ new ∧
        ∀ x ∈ new, lead ≤ x ∧ x ≤ 240 := by
  intro lead st
  induction lead, st using forecastLoop.induct e ri n with
  | case1 lead st h1 t h2 ih =>
      obtain ⟨new, hn, hb⟩ := ih
      refine ⟨new, ?_, fun x hx => ⟨by have := (hb x hx).1; omega, (hb x hx).2⟩⟩
      rw [forecastLoop, dif_pos h1]
      simp only [if_pos h2]
      exact hn
  | case2 lead st h1 t h2 stem skipDownload h3 ih =>
      obtain ⟨new, hn, hb⟩ := ih
      refine ⟨new, ?_, fun x hx => ⟨by have := (hb x hx).1; omega, (hb x hx).2⟩⟩
      rw [forecastLoop, dif_pos h1]
      simp only [if_neg h2, if_pos h3]
      exact hn
  | case3 lead st h1 t h2 stem skipDownload h3 r st2 ih =>
      obtain ⟨new, hn, hb⟩ := ih
      have hat : st2.attempts = st.attempts ++ [lead] := by
        simp only [st2]; split <;> rfl
      refine ⟨[lead] ++ new, ?_, ?_⟩
      · rw [forecastLoop, dif_pos h1]
        simp only [if_neg h2, if_neg h3]
        show (forecastLoop e ri n (lead + 6) st2).attempts = st.attempts ++ ([lead] ++ new)
        rw [hn, hat, List.append_assoc]
      · intro x hx
        rcases List.mem_append.mp hx with hx | hx
        · simp at hx; omega
        · exact ⟨by have := (hb x hx).1; omega, (hb x hx).2⟩
  | case4 lead st h1 =>
      refine ⟨[], by rw [forecastLoop, dif_neg h1]; simp, by simp⟩

lemma forecastLoop_downloaded_le (e : Env) (ri : ℤ) (n : ℕ) :
    ∀ (lead : ℕ) (st : LoopState), st.downloaded ≤ n →
      (forecastLoop e ri n lead st).downloaded ≤ n := by
  intro lead st
  induction lead, st using forecastLoop.induct e ri n with
  | case1 lead st h1 t h2 ih =>
      intro h
      rw [forecastLoop, dif_pos h1]
      simp only [if_pos h2]
      exact ih h
  | case2 lead st h1 t h2 stem skipDownload h3 ih =>
      intro h
      rw [forecastLoop, dif_pos h1]
      simp only [if_neg h2, if_pos h3]
      exact ih h
  | case3 lead st h1 t h2 stem skipDownload h3 r st2 ih =>
      intro h
      rw [forecastLoop, dif_pos h1]
      simp only [if_neg h2, if_neg h3]
      show (forecastLoop e ri n (lead + 6) st2).downloaded ≤ n
      refine ih ?_
      have : st2.downloaded = st.downloaded + 1 ∨ st2.downloaded = st.downloaded := by
        simp only [st2]; split
        · left; rfl
        · right; rfl
      rcases this with hh | hh <;> rw [hh] <;> omega
  | case4 lead st h1 =>
      intro h
      rw [forecastLoop, dif_neg h1]
      exact h

lemma forecastLoop_attempts_mem (e : Env) (ri : ℤ) (n lead2 : ℕ)
    (st : LoopState) (l : ℕ) (h : l ∈ st.attempts) :
    l ∈ (forecastLoop e ri n lead2 st).attempts := by
  obtain ⟨new, hn, _⟩ := forecastLoop_attempts_shape e ri n lead2 st
  rw [hn]
  exact List.mem_append_left _ h

/-- Claim C2: at any aligned candidate lead inside the loop bounds, the step
is skipped (no `download_forecast_step` invocation for that lead) if
and only if the target instant is in the in-memory existing set and
every configured parameter's file for the target is on disk. -/
theorem gapfill_skip_iff (e : Env) (ri : ℤ) (needed lead : ℕ)
    (st : LoopState) (hd : st.downloaded < needed) (hl : lead ≤ 240)
    (hal : ((ri + (lead : ℤ)).emod 24).emod 6 = 0)
    (hfresh : lead ∉ st.attempts) :
    lead ∉ (forecastLoop e ri needed lead st).attempts ↔
      ((∀ p ∈ PARAMS, (p, fmtStem (ri + (lead : ℤ))) ∈ st.store) ∧
        (ri + (lead : ℤ)) ∈ st.existing) := by
  have hbridge :
      ((PARAMS.all fun p => st.store.contains (p, fmtStem (ri + (lead : ℤ)))) = true
          ∧ (ri + (lead : ℤ)) ∈ st.existing) ↔
        ((∀ p ∈ PARAMS, (p, fmtStem (ri + (lead : ℤ))) ∈ st.store) ∧
          (ri + (lead : ℤ)) ∈ st.existing) := by
    simp only [List.all_eq_true, contains_pair_iff]
  rw [forecastLoop, dif_pos ⟨hd, hl⟩]
  simp only [if_neg (not_not_intro hal)]
  by_cases hskip :
      (PARAMS.all fun p => st.store.contains (p, fmtStem (ri + (lead : ℤ)))) = true
        ∧ (ri + (lead : ℤ)) ∈ st.existing
  · rw [if_pos hskip]
    obtain ⟨new, hn, hb⟩ := forecastLoop_attempts_shape e ri needed (lead + 6) st
    constructor
    · intro _
      exact hbridge.mp hskip
    · intro _
      rw [hn, List.mem_append]
      rintro (h | h)
      · exact hfresh h
      · have := (hb _ h).1; omega
  · rw [if_neg hskip]
    constructor
    · intro habs
      exfalso
      apply habs
      apply forecastLoop_attempts_mem
      split <;> simp
    · intro hrhs
      exact absurd (hbridge.mpr hrhs) hskip

/-- Claim C7: the gap-fill loop started at lead 6 always terminates (it is a
total function), never downloads more than the needed count, and never
attempts a lead beyond the 240-hour horizon: an unreachable target
yields a plan shorter than needed rather than an error. -/
theorem forecastLoop_horizon_bound (e : Env) (ri : ℤ) (needed : ℕ)
    (store : List (String × String)) (ex : Finset ℤ) :
    (forecastLoop e ri needed 6 ⟨store, ex, 0, []⟩).downloaded ≤ needed ∧
      ∀ l ∈ (forecastLoop e ri needed 6 ⟨store, ex, 0, []⟩).attempts,
        6 ≤ l ∧ l ≤ 240 := by
  refine ⟨forecastLoop_downloaded_le e ri needed 6 _ (by simp), ?_⟩
  obtain ⟨new, hn, hb⟩ := forecastLoop_attempts_shape e ri needed 6 ⟨store, ex, 0, []⟩
  intro l hl
  rw [hn] at hl
  simp only [List.nil_append] at hl
  exact hb l hl

lemma probeDate_eq_find (e : Env) (ds : String) :
    probeDate e ds =
      (match getAvailableCycles e ds with
        | none => []
        | some cycles => cycles.reverse.map fun c => (ds, c)).find?
        (fun pr => e.fc pr.1 pr.2) := by
  cases h : getAvailableCycles e ds with
  | none => simp [probeDate, h]
  | some cycles =>
      simp only [probeDate, h]
      rw [List.find?_map]
      rfl

/-- Claim C8: run discovery probes exactly the most-recent-first date order
with each date's sorted cycles walked latest-first, returning the
first probe with forecast data; and when no probed pair has forecast
data the result is empty rather than an error. -/
theorem discoverLatestRun_probe_order (e : Env) :
    discoverLatestRun e = (probeSeq e).find? (fun pr => e.fc pr.1 pr.2) ∧
      ((∀ d c, e.fc d c = false) → discoverLatestRun e = none) := by
  have hmain :
      discoverLatestRun e = (probeSeq e).find? (fun pr => e.fc pr.1 pr.2) := by
    unfold discoverLatestRun probeSeq
    rw [show List.range 2 = [0, 1] from rfl]
    simp only [List.flatMap_cons, List.flatMap_nil, List.append_nil,
      List.find?_append]
    rw [List.findSome?_cons]
    rw [← probeDate_eq_find, ← probeDate_eq_find]
    cases h0 : probeDate e (e.dayStr (-((0 : ℕ) : ℤ))) with
    | none =>
        rw [List.findSome?_cons, List.findSome?_nil]
        cases h1 : probeDate e (e.dayStr (-((1 : ℕ) : ℤ))) with
        | none => simp [Option.or]
        | some v => simp [Option.or]
    | some v => simp [Option.or]
  refine ⟨hmain, fun hall => ?_⟩
  rw [hmain]
  apply List.find?_eq_none.mpr
  intro x _
  rw [hall x.1 x.2]
  simp

/-! ### Lemmas about the existing-timestep scan -/

lemma scanFold_mem (t : ℤ) :
    ∀ (stems : List String) (acc S : Finset ℤ),
      stems.foldlM scanStep acc = Except.ok S →
      (t ∈ S ↔ t ∈ acc ∨ ∃ s ∈ stems, parseStem s = Except.ok (some t)) := by
  intro stems
  induction stems with
  | nil =>
      intro acc S h
      simp only [List.foldlM_nil] at h
      cases h
      simp
  | cons s rest ih =>
      intro acc S h
      rw [List.foldlM_cons] at h
      cases hp : parseStem s with
      | error msg =>
          rw [show scanStep acc s = Except.error msg by
            simp only [scanStep, hp]; rfl] at h
          cases h
      | ok r =>
          cases r with
          | none =>
              rw [show scanStep acc s = Except.ok acc by
                simp only [scanStep, hp]; rfl] at h
              rw [ih acc S h]
              constructor
              · rintro (hh | ⟨s2, hs2, hps⟩)
                · exact Or.inl hh
                · exact Or.inr ⟨s2, List.mem_cons_of_mem _ hs2, hps⟩
              · rintro (hh | ⟨s2, hs2, hps⟩)
                · exact Or.inl hh
                · rcases List.mem_cons.mp hs2 with hh2 | hh2
                  · subst hh2; rw [hp] at hps; cases hps
                  · exact Or.inr ⟨s2, hh2, hps⟩
          | some u =>
              rw [show scanStep acc s = Except.ok (insert u acc) by
                simp only [scanStep, hp]; rfl] at h
              rw [ih (insert u acc) S h]
              simp only [Finset.mem_insert]
              constructor
              · rintro ((hh | hh) | ⟨s2, hs2, hps⟩)
                · exact Or.inr ⟨s, List.mem_cons_self s rest, by rw [hp, hh]⟩
                · exact Or.inl hh
                · exact Or.inr ⟨s2, List.mem_cons_of_mem _ hs2, hps⟩
              · rintro (hh | ⟨s2, hs2, hps⟩)
                · exact Or.inl (Or.inr hh)
                · rcases List.mem_cons.mp hs2 with hh2 | hh2
                  · subst hh2
                    rw [hp] at hps
                    cases hps
                    exact Or.inl (Or.inl rfl)
                  · exact Or.inr ⟨s2, hh2, hps⟩

lemma exceptBind_ok {α β : Type} (a : α) (k : α → Except String β) :
    (Except.ok a >>= k) = k a := rfl

lemma exceptBind_error {α β : Type} (msg : String) (k : α → Except String β) :
    ((Except.error msg : Except String α) >>= k) = Except.error msg := rfl

lemma pyIntE_none (cs : List Char) (h : pyInt? cs = none) :
    pyIntE cs = Except.error ("invalid literal for int: " ++ String.mk cs) := by
  simp only [pyIntE, h]

lemma pyIntE_some (cs : List Char) {v : ℤ} (h : pyInt? cs = some v) :
    pyIntE cs = Except.ok v := by
  simp only [pyIntE, h]

lemma parseStem_of_not_two (s : String)
    (h : (splitOnChar '_' s.data).length ≠ 2) :
    parseStem s = Except.ok none := by
  unfold parseStem
  rcases hsp : splitOnChar '_' s.data with _ | ⟨a, _ | ⟨b, _ | ⟨c, rest⟩⟩⟩
  · rfl
  · rfl
  · exact absurd (by rw [hsp]; rfl) h
  · rfl

lemma scanFold_skip (s : String) (hp : parseStem s = Except.ok none) :
    ∀ (pre : List String) (acc : Finset ℤ) (post : List String),
      (pre ++ s :: post).foldlM scanStep acc =
        (pre ++ post).foldlM scanStep acc := by
  intro pre
  induction pre with
  | nil =>
      intro acc post
      simp only [List.nil_append, List.foldlM_cons]
      rw [show scanStep acc s = Except.ok acc by simp only [scanStep, hp]; rfl]
      rfl
  | cons hd rest ih =>
      intro acc post
      simp only [List.cons_append, List.foldlM_cons]
      cases hh : scanStep acc hd with
      | error msg => rfl
      | ok acc2 =>
          simp only [exceptBind_ok]
          exact ih acc2 post

lemma scanFold_ok_iff :
    ∀ (stems : List String) (acc : Finset ℤ),
      (∃ S, stems.foldlM scanStep acc = Except.ok S) ↔
        ∀ s ∈ stems, ∃ r, parseStem s = Except.ok r := by
  intro stems
  induction stems with
  | nil =>
      intro acc
      constructor
      · intro _ s hs
        cases hs
      · intro _
        exact ⟨acc, rfl⟩
  | cons s rest ih =>
      intro acc
      simp only [List.foldlM_cons]
      cases hp : parseStem s with
      | error msg =>
          rw [show scanStep acc s = Except.error msg by
            simp only [scanStep, hp]; rfl]
          simp only [exceptBind_error]
          constructor
          · rintro ⟨S, hS⟩
            exact Except.noConfusion hS
          · intro hall
            obtain ⟨r, hr⟩ := hall s (List.mem_cons_self s rest)
            rw [hp] at hr
            exact Except.noConfusion hr
      | ok r =>
          have hstep : scanStep acc s =
              Except.ok (match r with | some u => insert u acc | none => acc) := by
            cases r <;> simp only [scanStep, hp] <;> rfl
          rw [hstep]
          simp only [exceptBind_ok]
          rw [ih]
          constructor
          · intro hall s2 hs2
            rcases List.mem_cons.mp hs2 with hh | hh
            · subst hh
              exact ⟨r, hp⟩
            · exact hall s2 hh
          · intro hall s2 hs2
            exact hall s2 (List.mem_cons_of_mem _ hs2)

lemma parseStem_two_part_iff (s : String) (fd fc : List Char)
    (hsplit : splitOnChar '_' s.data = [fd, fc]) :
    (∃ r, parseStem s = Except.ok r) ↔
      ∃ y m d h, pyInt? (fd.take 4) = some y ∧
        pyInt? ((fd.drop 4).take 2) = some m ∧
        pyInt? ((fd.drop 6).take 2) = some d ∧
        pyInt? fc.dropLast = some h ∧
        validDatetime y m d h = true := by
  have hb : parseStem s = (do
      let y ← pyIntE (fd.take 4)
      let m ← pyIntE ((fd.drop 4).take 2)
      let d ← pyIntE ((fd.drop 6).take 2)
      let h ← pyIntE fc.dropLast
      let _ ← checkDatetime y m d h
      pure (some (instantOf y m d h))) := by
    unfold parseStem
    rw [hsplit]
  rw [hb]
  cases hy : pyInt? (fd.take 4) with
  | none =>
      simp only [pyIntE_none _ hy, exceptBind_error]
      constructor
      · rintro ⟨r, hr⟩
        exact Except.noConfusion hr
      · rintro ⟨y, m, d, h, hy2, _, _, _, _⟩
        exact Option.noConfusion hy2
  | some y =>
      simp only [pyIntE_some _ hy, exceptBind_ok]
      cases hm : pyInt? ((fd.drop 4).take 2) with
      | none =>
          simp only [pyIntE_none _ hm, exceptBind_error]
          constructor
          · rintro ⟨r, hr⟩
            exact Except.noConfusion hr
          · rintro ⟨y2, m2, d2, h2, hy2, hm2, _, _, _⟩
            exact Option.noConfusion hm2
      | some m =>
          simp only [pyIntE_some _ hm, exceptBind_ok]
          cases hd : pyInt? ((fd.drop 6).take 2) with
          | none =>
              simp only [pyIntE_none _ hd, exceptBind_error]
              constructor
              · rintro ⟨r, hr⟩
                exact Except.noConfusion hr
              · rintro ⟨y2, m2, d2, h2, _, _, hd2, _, _⟩
                exact Option.noConfusion hd2
          | some d =>
              simp only [pyIntE_some _ hd, exceptBind_ok]
              cases hh : pyInt? fc.dropLast with
              | none =>
                  simp only [pyIntE_none _ hh, exceptBind_error]
                  constructor
                  · rintro ⟨r, hr⟩
                    exact Except.noConfusion hr
                  · rintro ⟨y2, m2, d2, h2, _, _, _, hh2, _⟩
                    exact Option.noConfusion hh2
              | some h =>
                  simp only [pyIntE_some _ hh, exceptBind_ok]
                  cases hv : validDatetime y m d h with
                  | false =>
                      rw [show checkDatetime y m d h = Except.error "bad datetime" by
                        simp [checkDatetime, hv]]
                      simp only [exceptBind_error]
                      constructor
                      · rintro ⟨r, hr⟩
                        exact Except.noConfusion hr
                      · rintro ⟨y2, m2, d2, h2, hy2, hm2, hd2, hh2, hv2⟩
                        cases hy2
                        cases hm2
                        cases hd2
                        cases hh2
                        rw [hv] at hv2
                        cases hv2
                  | true =>
                      rw [show checkDatetime y m d h = Except.ok () by
                        simp [checkDatetime, hv]]
                      simp only [exceptBind_ok]
                      constructor
                      · intro _
                        exact ⟨y, m, d, h, rfl, rfl, rfl, rfl, hv⟩
                      · intro _
                        exact ⟨some (instantOf y m d h), rfl⟩

lemma mem_stemsOf {store : List (String × String)} {p s : String} :
    s ∈ stemsOf store p ↔ (p, s) ∈ store := by
  simp only [stemsOf, List.mem_filterMap]
  constructor
  · rintro ⟨⟨a, b⟩, hab, hif⟩
    by_cases hc : a = p
    · subst hc
      rw [if_pos rfl] at hif
      cases hif
      exact hab
    · rw [if_neg hc] at hif
      cases hif
  · intro h
    exact ⟨(p, s), h, by rw [if_pos rfl]⟩

/-! ### Claim C9 -/

/-- Claim C9 counterexample: the stem `foo_bar` splits into two parts, so the
scan reaches `int('foo')`, which raises; the scan aborts with an
exception instead of ignoring the unparsable name and continuing. -/
theorem scanStems_raises_cex :
    scanStems ["foo_bar"] = Except.error "invalid literal for int: foo" := rfl

/-- Claim C9 (amended): a filename stem that does not split into exactly
two parts on the underscore is ignored wherever it occurs and the scan
continues past it; the scan completes without an exception if and only
if every stem parses, where a two-part stem parses exactly when its
four `int()` fields parse and the resulting `datetime` is valid — so
any two-part stem failing `int()` or `datetime` validation aborts the
whole scan. -/
theorem scanStems_skip_and_ok :
    (∀ (pre post : List String) (s : String),
        (splitOnChar '_' s.data).length ≠ 2 →
        scanStems (pre ++ s :: post) = scanStems (pre ++ post)) ∧
      (∀ (stems : List String),
        (∃ S, scanStems stems = Except.ok S) ↔
          ∀ s ∈ stems, ∃ r, parseStem s = Except.ok r) ∧
      ∀ (s : String) (fd fc : List Char),
        splitOnChar '_' s.data = [fd, fc] →
        ((∃ r, parseStem s = Except.ok r) ↔
          ∃ y m d h, pyInt? (fd.take 4) = some y ∧
            pyInt? ((fd.drop 4).take 2) = some m ∧
            pyInt? ((fd.drop 6).take 2) = some d ∧
            pyInt? fc.dropLast = some h ∧
            validDatetime y m d h = true) := by
  refine ⟨?_, ?_, parseStem_two_part_iff⟩
  · intro pre post s h
    exact scanFold_skip s (parseStem_of_not_two s h) pre ∅ post
  · intro stems
    exact scanFold_ok_iff stems ∅

/-- Claim C9 witness for the amended claim: a one-part stem is skipped in a
non-head position, a well-formed directory scans without an exception,
and a directory containing the `datetime`-invalid stem `20251301_00z`
(month 13) cannot scan successfully. -/
theorem scanStems_skip_and_ok_witness :
    scanStems ["20250101_00z", "abc"] = scanStems ["20250101_00z"] ∧
      (∃ S, scanStems ["20250101_00z"] = Except.ok S) ∧
      ¬∃ S, scanStems ["20251301_00z"] = Except.ok S :=
  ⟨scanStems_skip_and_ok.1 ["20250101_00z"] [] "abc" (by decide),
   (scanStems_skip_and_ok.2.1 ["20250101_00z"]).mpr (by
      intro s hs
      rw [List.mem_singleton] at hs
      subst hs
      exact ⟨some 482136, rfl⟩),
   fun hex => by
      obtain ⟨r, hr⟩ := (scanStems_skip_and_ok.2.1 ["20251301_00z"]).mp hex
        "20251301_00z" (List.mem_singleton.mpr rfl)
      rw [show parseStem "20251301_00z" = Except.error "bad datetime" from rfl] at hr
      exact Except.noConfusion hr⟩

/-! ### Claim C3 -/

/-- Concrete store in which the reference parameter `temp2m` has a
persisted timestep but the other parameters do not. -/
def storeC3 : List (String × String) :=
  [("temp2m", "20250101_06z")]

/-- Claim C3 counterexample: the orchestrator's existing set is built from
the `temp2m` directory alone, so for `storeC3` it contains the instant
of `20250101_06z`, while the intersection of the per-parameter
existence sets is empty because the other three parameters have no
file. -/
theorem existingSet_not_intersection_cex :
    scanStems (stemsOf storeC3 "temp2m") = Except.ok {(482142 : ℤ)} ∧
      specExistingSet storeC3 = ∅ ∧
      ({(482142 : ℤ)} : Finset ℤ) ≠ ∅ :=
  ⟨rfl, rfl, by decide⟩

/-- Claim C3 (amended): the existing-timestep set passed to gap-fill planning
is exactly the existence set of the single reference parameter
`temp2m` — an instant is in it iff some persisted `temp2m` stem parses
to it — not the intersection of the per-parameter existence sets. -/
theorem existingSet_is_temp2m_scan (store : List (String × String))
    (S : Finset ℤ) (h : scanStems (stemsOf store "temp2m") = Except.ok S)
    (t : ℤ) :
    t ∈ S ↔ ∃ stem, ("temp2m", stem) ∈ store ∧
      parseStem stem = Except.ok (some t) := by
  rw [scanFold_mem t (stemsOf store "temp2m") ∅ S h]
  simp only [Finset.not_mem_empty, false_or]
  constructor
  · rintro ⟨s, hs, hps⟩
    exact ⟨s, mem_stemsOf.mp hs, hps⟩
  · rintro ⟨s, hs, hps⟩
    exact ⟨s, mem_stemsOf.mpr hs, hps⟩

/-- Claim C3 witness for the amended claim, at the concrete store
`storeC3`. -/
theorem existingSet_is_temp2m_scan_witness :
    (482142 : ℤ) ∈ ({(482142 : ℤ)} : Finset ℤ) ↔
      ∃ stem, ("temp2m", stem) ∈ storeC3 ∧
        parseStem stem = Except.ok (some 482142) :=
  existingSet_is_temp2m_scan storeC3 {(482142 : ℤ)} rfl 482142

/-! ### Claims C1 and C10 -/

/-- Concrete environment in which every analysis retrieval succeeds but
run discovery finds nothing: the S3 listing answers with no cycles for
every date, so no run can be probed. -/
def envA : Env :=
  { dayStr := fun _ => "20250101", s3 := fun _ => some [],
    fc := fun _ _ => false, fetchA := fun _ _ _ => .ok,
    fetchF := fun _ _ => .ok, store0 := [] }

/-- Claim C1 counterexample: in `envA` the analysis sweep succeeds completely
(4 of 4 timesteps counted, 16 parameter files written), discovery
returns nothing, and `main` exits with code 1 — not 0 as the claim
requires for a run with at least one successful analysis download. -/
theorem mainRun_exit1_despite_success_cex :
    mainRun envA 0 = Except.ok 1 ∧
      discoverLatestRun envA = none ∧
      (analysisPhase envA (generateDateList envA 0)
        ["00z", "06z", "12z", "18z"]).2 = 4 ∧
      (analysisPhase envA (generateDateList envA 0)
        ["00z", "06z", "12z", "18z"]).1.length = 16 ∧
      mainRun envA 0 ≠ Except.ok 0 :=
  ⟨rfl, rfl, rfl, rfl, fun h => by cases h⟩

/-- Claim C1 (amended): the CLI exits with code 1 exactly when run discovery
returns nothing, regardless of how many analysis downloads succeeded;
a successful discovery leads to exit code 0 (or to an uncaught
exception of the extension phase, never to exit code 1). -/
theorem mainRun_exit1_iff_discovery_none (e : Env) (delta : ℕ) :
    mainRun e delta = Except.ok 1 ↔ discoverLatestRun e = none := by
  unfold mainRun
  cases h : discoverLatestRun e with
  | none => simp
  | some run =>
      simp only []
      constructor
      · intro habs
        cases hdlf : downloadLatestForecasts e run.1 run.2 ((delta * 2 + 1) * 4)
          (analysisPhase e (generateDateList e delta) ["00z", "06z", "12z", "18z"]).1 with
        | error msg => rw [hdlf] at habs; cases habs
        | ok st => rw [hdlf] at habs; cases habs
      · intro habs
        cases habs

/-- Claim C10: `download_timestep` returns `True` for every input and every
fetch outcome (all per-parameter failures are swallowed inside the
loop), so the orchestrator's analysis success counter always equals
the number of attempted date-cycle pairs. -/
theorem downloadTimestep_always_true (e : Env) (dates cycles : List String) :
    (∀ (fetch : String → FetchOutcome) (date cycle : String),
        (downloadTimestep fetch date cycle).2 = true) ∧
      (analysisPhase e dates cycles).2 = dates.length * cycles.length := by
  have hcycle : ∀ (date : String) (cs : List String)
      (acc : List (String × String) × ℕ),
      (cs.foldl (cycleStep e date) acc).2 = acc.2 + cs.length := by
    intro date cs
    induction cs with
    | nil => intro acc; simp
    | cons c rest ih =>
        intro acc
        rw [List.foldl_cons, ih]
        simp [cycleStep, downloadTimestep]
        omega
  have hdate : ∀ (ds : List String) (acc : List (String × String) × ℕ),
      (ds.foldl (dateStep e cycles) acc).2 = acc.2 + ds.length * cycles.length := by
    intro ds
    induction ds with
    | nil => intro acc; simp
    | cons d rest ih =>
        intro acc
        rw [List.foldl_cons, dateStep, ih, hcycle]
        simp [List.length_cons]
        ring
  exact ⟨fun _ _ _ => rfl, by rw [analysisPhase, hdate]; simp⟩

/-- Claim C2 witness: a concrete aligned lead (6 hours past a midnight run)
with an empty disk and an empty existing set is not skipped — the
download is attempted — matching the right-hand side being false. -/
theorem gapfill_skip_iff_witness :
    6 ∉ (forecastLoop envA 482136 1 6 ⟨[], ∅, 0, []⟩).attempts ↔
      ((∀ p ∈ PARAMS, (p, fmtStem (482136 + ((6 : ℕ) : ℤ)))
          ∈ ([] : List (String × String))) ∧
        482136 + ((6 : ℕ) : ℤ) ∈ (∅ : Finset ℤ)) :=
  gapfill_skip_iff envA 482136 1 6 ⟨[], ∅, 0, []⟩ (by decide) (by decide)
    (by decide) (by decide)

/-- Claim C8 witness: in `envA` every probe fails, and discovery returns the
empty result rather than an error. -/
theorem discoverLatestRun_probe_order_witness :
    discoverLatestRun envA = none :=
  (discoverLatestRun_probe_order envA).2 (fun _ _ => rfl)

end Hypatia
